import Mathlib

/-!
Verification of the streak-photometry core of `LEOphotometry.py`
(satphotometry repository).

The five components — Coordinate Projector (`radec_to_pixel`), Background
Masker (`img_mask`), Axial Profiler (`count_1d`), Peak-Extent Fitter
(`gauss_fitting`) and Flux Integrator (`photometry`) — are embedded
shallowly over exact rationals.  External numeric services that the code
consumes (the WCS world-to-pixel mapping, the nonlinear least-squares
solver `scipy.optimize.curve_fit`, `np.sqrt` inside `np.std`, `np.log10`
and `np.exp`) are passed in as explicit function parameters, so every
definition stays computable and each theorem quantifies over them.
-/

namespace LEOphotometry

/-- Python `int()` applied to a rational number: truncation toward zero
(floor for nonnegative values, ceiling for negative values). -/
def pyInt (q : ℚ) : ℤ :=
  if 0 ≤ q then ⌊q⌋ else ⌈q⌉

/-! ### Coordinate Projector: `radec_to_pixel`

```python
skycoord = SkyCoord(ra_deg * u.deg, dec_deg * u.deg, frame='icrs')
x_pix, y_pix = wcs_obj.world_to_pixel(skycoord)
if origin == 1:
    x_pix += 1
    y_pix += 1
return [x_pix, y_pix]
```

The WCS object is opaque; we model it by its single operation
`world_to_pixel : ℚ × ℚ → ℚ × ℚ`. -/

def radec_to_pixel (ra_deg dec_deg : ℚ) (wcs_obj : ℚ × ℚ → ℚ × ℚ)
    (origin : ℤ := 0) : List ℚ :=
  let p := wcs_obj (ra_deg, dec_deg)
  let x_pix := p.1
  let y_pix := p.2
  if origin = 1 then [x_pix + 1, y_pix + 1] else [x_pix, y_pix]

/-! ### Background Masker: `img_mask`

```python
if threshold is None:
    threshold = np.mean(image_data) + 3*np.std(image_data)
masked_data = np.ma.array(image_data, mask=(threshold < image_data))
return masked_data
```

Images are lists of rows of rationals; a masked image pairs every pixel
with its mask bit (`true` = masked/excluded).  `np.std` needs a square
root, which is not rational-valued, so `img_mask` takes the square-root
routine as a parameter `sqrtFn`. -/

/-- Flatten a 2-D image to the list of all its pixel values. -/
def pixels (image_data : List (List ℚ)) : List ℚ :=
  image_data.flatten

/-- `np.mean` over the whole array: sum of all entries over their count. -/
def npMean (image_data : List (List ℚ)) : ℚ :=
  (pixels image_data).sum / (pixels image_data).length

/-- Population variance of the whole array, i.e. the square of `np.std`
(`ddof = 0`): mean of the squared deviations from the mean. -/
def npVar (image_data : List (List ℚ)) : ℚ :=
  (((pixels image_data).map (fun x => (x - npMean image_data) ^ 2)).sum) /
    (pixels image_data).length

/-- One row of `np.ma.array(..., mask=(threshold < image_data))`. -/
def maskRow (threshold : ℚ) (row : List ℚ) : List (ℚ × Bool) :=
  row.map (fun x => (x, decide (threshold < x)))

def img_mask (sqrtFn : ℚ → ℚ) (image_data : List (List ℚ))
    (threshold : Option ℚ := none) : List (List (ℚ × Bool)) :=
  let t := match threshold with
    | some t => t
    | none => npMean image_data + 3 * sqrtFn (npVar image_data)
  image_data.map (maskRow t)

/-! ### Axial Profiler: `count_1d`

```python
counts = np.ma.mean(image_data, axis=count_axis)
coordinates = np.arange(len(counts))
return counts, coordinates
```

`np.ma.mean` along an axis averages the unmasked entries of each line;
a line that is entirely masked yields a masked (absent) value, modelled
as `none`. `count_axis = 1` averages within each row, `count_axis = 0`
within each column (the transpose's rows). -/

/-- Mean of the unmasked entries of one masked line; `none` when every
entry is masked. -/
def maskedLineMean (line : List (ℚ × Bool)) : Option ℚ :=
  let vals := (line.filter (fun p => !p.2)).map Prod.fst
  if vals.length = 0 then none else some (vals.sum / vals.length)

def count_1d (image_data : List (List (ℚ × Bool))) (count_axis : ℕ := 1) :
    List (Option ℚ) × List ℕ :=
  let lines := if count_axis = 1 then image_data else image_data.transpose
  let counts := lines.map maskedLineMean
  (counts, List.range counts.length)

/-! ### Peak-Extent Fitter: `gauss_fitting`

```python
param_ini = [counts.max(), counts.argmax(), 1, np.median(counts)]
popt, _ = curve_fit(gauss_func, coordinates, counts, p0=param_ini, maxfev=1000)
fitting = gauss_func(coordinates, popt[0], popt[1], popt[2], popt[3])
range_min = int(popt[1] - 3 * popt[2])
range_max = int(popt[1] + 3 * popt[2])
return popt, fitting, range_min, range_max
```

`curve_fit` is an external nonlinear least-squares solver; we pass it in
as `fitFn`, taking the coordinates, the counts and the initial-guess
vector and returning `some (a, mu, sigma, b)` on convergence or `none`
on divergence inside the iteration cap.  `np.exp` inside `gauss_func`
is likewise a parameter `expFn`. -/

/-- `np.max` of a nonempty count list (0 as a vacuous default for the
empty list, which numpy rejects). -/
def npMax (counts : List ℚ) : ℚ :=
  counts.foldr max (counts.headD 0)

/-- `np.argmax`: index of the first occurrence of the maximum. -/
def npArgmax (counts : List ℚ) : ℕ :=
  (counts.indexOf (npMax counts))

/-- `np.median`: middle element of the sorted list for odd length, the
average of the two middle elements for even length. -/
def npMedian (counts : List ℚ) : ℚ :=
  let s := counts.mergeSort (fun a b => decide (a ≤ b))
  let n := s.length
  if n % 2 = 1 then s.getD (n / 2) 0
  else (s.getD (n / 2 - 1) 0 + s.getD (n / 2) 0) / 2

/-- The model function `a·exp(−(x−μ)²/(2σ²)) + b`, with the exponential
routine abstracted. -/
def gauss_func (expFn : ℚ → ℚ) (x a mu sigma b : ℚ) : ℚ :=
  a * expFn (-(x - mu) ^ 2 / (2 * sigma ^ 2)) + b

/-- Result record of `gauss_fitting`: the fitted parameter 4-tuple, the
fitted curve sampled on the coordinates, and the derived extent. -/
structure GaussFitResult where
  popt : ℚ × ℚ × ℚ × ℚ
  fitting : List ℚ
  range_min : ℤ
  range_max : ℤ
  deriving Repr, DecidableEq

def gauss_fitting
    (fitFn : List ℚ → List ℚ → List ℚ → Option (ℚ × ℚ × ℚ × ℚ))
    (expFn : ℚ → ℚ) (counts coordinates : List ℚ) :
    Option GaussFitResult :=
  let param_ini : List ℚ :=
    [npMax counts, (npArgmax counts : ℚ), 1, npMedian counts]
  match fitFn coordinates counts param_ini with
  | none => none
  | some (a, mu, sigma, b) =>
    let fitting := coordinates.map (fun x => gauss_func expFn x a mu sigma b)
    some { popt := (a, mu, sigma, b)
           fitting := fitting
           range_min := pyInt (mu - 3 * sigma)
           range_max := pyInt (mu + 3 * sigma) }

/-! ### Flux Integrator: `photometry`

```python
streak_region_data = np.array([image_data[i] for i in range(range_min, range_max+1)])
off_region_data = np.array([image_data[i] for i in
    itertools.chain(range(0, range_min), range(range_max+1, len(image_data)))])
sum_off_region = np.sum(off_region_data)
pixel_off_region = len(off_region_data)*len(off_region_data[0])
pixcount_off_region = sum_off_region/pixel_off_region
pixel_streak_region = len(streak_region_data)*len(streak_region_data[0])
sum_streak_region = np.sum(streak_region_data) - pixcount_off_region*pixel_streak_region
count_pix2 = sum_streak_region / pixel_streak_region
count_arc2 = count_pix2 / (arc_per_pix**2)
if zeropoint is None or zeropoint == "NaN":
    mag_pix2 = None
    mag_arc2 = None
else:
    mag_pix2 = -2.5*np.log10(count_pix2) + zeropoint
    mag_arc2 = -2.5*np.log10(count_arc2) + zeropoint
return count_pix2, count_arc2, mag_pix2, mag_arc2
```

Row indexing `image_data[i]` raises `IndexError` when `i` is out of
range, as does `off_region_data[0]` / `streak_region_data[0]` when the
corresponding partition is empty; those failures are modelled as `none`.
`np.log10` is abstracted as `log10Fn`. -/

/-- A zeropoint argument other than `None`: either a number or the
string sentinel `"NaN"` (a Python float never compares equal to the
string, so the two constructors are disjoint exactly as in the code). -/
inductive Zeropoint where
  | num (z : ℚ)
  | nanSentinel
  deriving Repr, DecidableEq

/-- The returned 4-tuple: count-based brightnesses and optional
magnitudes. -/
structure PhotometryResult where
  count_pix2 : ℚ
  count_arc2 : ℚ
  mag_pix2 : Option ℚ
  mag_arc2 : Option ℚ
  deriving Repr, DecidableEq

/-- `[image_data[i] for i in idxs]`, failing like Python's `IndexError`
when any index is out of range. -/
def rowsAt (image_data : List (List ℚ)) : List ℕ → Option (List (List ℚ))
  | [] => some []
  | i :: rest =>
    match image_data.get? i, rowsAt image_data rest with
    | some r, some rs => some (r :: rs)
    | _, _ => none

/-- The row indices of the streak partition: `range(range_min, range_max+1)`. -/
def streakIdxs (range_min range_max : ℕ) : List ℕ :=
  List.range' range_min (range_max + 1 - range_min)

/-- The row indices of the off-streak partition:
`chain(range(0, range_min), range(range_max+1, len(image_data)))`. -/
def offIdxs (numRows range_min range_max : ℕ) : List ℕ :=
  List.range range_min ++ List.range' (range_max + 1) (numRows - (range_max + 1))

def photometry (log10Fn : ℚ → ℚ) (image_data : List (List ℚ))
    (range_min range_max : ℕ) (arc_per_pix : ℚ := 27 / 100)
    (zeropoint : Option Zeropoint := none) : Option PhotometryResult :=
  match rowsAt image_data (streakIdxs range_min range_max),
        rowsAt image_data (offIdxs image_data.length range_min range_max) with
  | some streak_region_data, some off_region_data =>
    match off_region_data, streak_region_data with
    | off0 :: _, s0 :: _ =>
      let sum_off_region := (off_region_data.map List.sum).sum
      let pixel_off_region := off_region_data.length * off0.length
      let pixcount_off_region := sum_off_region / pixel_off_region
      let pixel_streak_region := streak_region_data.length * s0.length
      let sum_streak_region :=
        (streak_region_data.map List.sum).sum -
          pixcount_off_region * pixel_streak_region
      let count_pix2 := sum_streak_region / pixel_streak_region
      let count_arc2 := count_pix2 / arc_per_pix ^ 2
      match zeropoint with
      | none =>
        some { count_pix2, count_arc2, mag_pix2 := none, mag_arc2 := none }
      | some Zeropoint.nanSentinel =>
        some { count_pix2, count_arc2, mag_pix2 := none, mag_arc2 := none }
      | some (Zeropoint.num z) =>
        some { count_pix2, count_arc2
               mag_pix2 := some (-(5 / 2) * log10Fn count_pix2 + z)
               mag_arc2 := some (-(5 / 2) * log10Fn count_arc2 + z) }
    | _, _ => none
  | _, _ => none

/-! ### Specification-side vocabulary

The spec speaks of the "streak region" (rows `range_min..range_max`
inclusive), the "off-streak region" (all other rows), region sums and
region pixel counts.  These are defined independently of `photometry`
so that the theorems compare the code with the spec's formulas. -/

/-- Rows `range_min .. range_max` inclusive. -/
def streakSpec (image_data : List (List ℚ)) (range_min range_max : ℕ) :
    List (List ℚ) :=
  (image_data.drop range_min).take (range_max + 1 - range_min)

/-- All rows outside `range_min .. range_max`. -/
def offSpec (image_data : List (List ℚ)) (range_min range_max : ℕ) :
    List (List ℚ) :=
  image_data.take range_min ++ image_data.drop (range_max + 1)

/-- Sum of all pixel values of a region. -/
def regionSum (region : List (List ℚ)) : ℚ :=
  (region.map List.sum).sum

/-- Number of pixels of a region. -/
def regionPixCount (region : List (List ℚ)) : ℕ :=
  (region.map List.length).sum

/-- Per-pixel background level: sum of the off-streak region over its
pixel count. -/
def bgLevel (image_data : List (List ℚ)) (range_min range_max : ℕ) : ℚ :=
  regionSum (offSpec image_data range_min range_max) /
    regionPixCount (offSpec image_data range_min range_max)

/-- Spec formula for brightness per pixel²: background-subtracted streak
sum over the streak pixel count. -/
def countPix2Spec (image_data : List (List ℚ)) (range_min range_max : ℕ) : ℚ :=
  (regionSum (streakSpec image_data range_min range_max) -
      bgLevel image_data range_min range_max *
        regionPixCount (streakSpec image_data range_min range_max)) /
    regionPixCount (streakSpec image_data range_min range_max)

/-- The magnitude field the spec prescribes for a given zeropoint
argument and brightness. -/
def magSpec (log10Fn : ℚ → ℚ) (zeropoint : Option Zeropoint) (c : ℚ) :
    Option ℚ :=
  match zeropoint with
  | none => none
  | some Zeropoint.nanSentinel => none
  | some (Zeropoint.num z) => some (-(5 / 2) * log10Fn c + z)

/-- A rectangular image: every row has width `w`. -/
def rectangular (image_data : List (List ℚ)) (w : ℕ) : Prop :=
  ∀ row ∈ image_data, row.length = w

/-- Pixel of an unmasked image at row `i`, column `j`. -/
def pixAt (image_data : List (List ℚ)) (i j : ℕ) : Option ℚ :=
  (image_data.get? i).bind fun row => row.get? j

/-- Entry of a masked image at row `i`, column `j`: the value together
with its mask bit. -/
def maskedPixAt (masked_data : List (List (ℚ × Bool))) (i j : ℕ) :
    Option (ℚ × Bool) :=
  (masked_data.get? i).bind fun row => row.get? j

/-- The values of the unmasked entries of one masked line, in order. -/
def unmaskedVals (line : List (ℚ × Bool)) : List ℚ :=
  (line.filter (fun p => !p.2)).map Prod.fst

/-! ### Helper lemmas

Evaluation of `photometry` against the spec-side region vocabulary. -/

theorem rowsAt_range' (l : List (List ℚ)) :
    ∀ (n s : ℕ), s + n ≤ l.length →
      rowsAt l (List.range' s n) = some ((l.drop s).take n) := by
  intro n
  induction n with
  | zero => intro s _; simp [rowsAt]
  | succ n ih =>
    intro s hs
    have hslt : s < l.length := by omega
    rw [List.range'_succ s n 1]
    have h1 : rowsAt l (List.range' (s + 1) n) = some ((l.drop (s + 1)).take n) :=
      ih (s + 1) (by omega)
    simp only [rowsAt, h1, List.get?_eq_get hslt]
    rw [List.drop_eq_getElem_cons hslt, List.take_succ_cons]
    simp [List.get_eq_getElem]

theorem rowsAt_append (l : List (List ℚ)) (xs ys : List ℕ)
    (a b : List (List ℚ)) (ha : rowsAt l xs = some a) (hb : rowsAt l ys = some b) :
    rowsAt l (xs ++ ys) = some (a ++ b) := by
  induction xs generalizing a with
  | nil => simp [rowsAt] at ha; subst ha; simpa using hb
  | cons x xs ih =>
    simp only [rowsAt] at ha
    cases hx : l.get? x with
    | none => rw [hx] at ha; exact absurd ha (by simp)
    | some r =>
      rw [hx] at ha
      cases hrest : rowsAt l xs with
      | none => rw [hrest] at ha; exact absurd ha (by simp)
      | some rs =>
        rw [hrest] at ha
        simp only [Option.some.injEq] at ha
        subst ha
        have h3 := ih rs hrest
        simp only [List.cons_append, rowsAt, List.append_eq, hx, h3]

theorem rowsAt_streak (l : List (List ℚ)) (rmin rmax : ℕ)
    (hmm : rmin ≤ rmax) (h : rmax < l.length) :
    rowsAt l (streakIdxs rmin rmax) = some (streakSpec l rmin rmax) := by
  unfold streakIdxs streakSpec
  exact rowsAt_range' l (rmax + 1 - rmin) rmin (by omega)

theorem rowsAt_off (l : List (List ℚ)) (rmin rmax : ℕ)
    (h : rmin ≤ l.length) (hub : rmax < l.length) :
    rowsAt l (offIdxs l.length rmin rmax) = some (offSpec l rmin rmax) := by
  unfold offIdxs offSpec
  have h1 : rowsAt l (List.range rmin) = some (l.take rmin) := by
    rw [List.range_eq_range' rmin]
    have := rowsAt_range' l rmin 0 (by omega)
    simpa using this
  have h2 : rowsAt l (List.range' (rmax + 1) (l.length - (rmax + 1))) =
      some (l.drop (rmax + 1)) := by
    have := rowsAt_range' l (l.length - (rmax + 1)) (rmax + 1) (by omega)
    rw [this]
    congr 1
    exact List.take_of_length_le (by simp)
  exact rowsAt_append l _ _ _ _ h1 h2

theorem regionPixCount_eq (region : List (List ℚ)) (w : ℕ)
    (h : ∀ row ∈ region, row.length = w) :
    regionPixCount region = region.length * w := by
  induction region with
  | nil => simp [regionPixCount]
  | cons r rs ih =>
    have hr : r.length = w := h r (List.mem_cons_self r rs)
    have hrs : regionPixCount rs = rs.length * w :=
      ih (fun row hrow => h row (List.mem_cons_of_mem r hrow))
    simp only [regionPixCount, List.map_cons, List.sum_cons, List.length_cons] at *
    rw [hrs, hr]
    ring

theorem photometry_eval (log10Fn : ℚ → ℚ) (image : List (List ℚ))
    (rmin rmax : ℕ) (arc : ℚ) (zp : Option Zeropoint) (w : ℕ)
    (hrect : rectangular image w)
    (hmm : rmin ≤ rmax) (hub : rmax < image.length)
    (hoff : 0 < rmin ∨ rmax + 1 < image.length) :
    photometry log10Fn image rmin rmax arc zp =
      some { count_pix2 := countPix2Spec image rmin rmax
             count_arc2 := countPix2Spec image rmin rmax / arc ^ 2
             mag_pix2 := magSpec log10Fn zp (countPix2Spec image rmin rmax)
             mag_arc2 :=
               magSpec log10Fn zp (countPix2Spec image rmin rmax / arc ^ 2) } := by
  have hS := rowsAt_streak image rmin rmax hmm hub
  have hO := rowsAt_off image rmin rmax (by omega) hub
  have hSlen : (streakSpec image rmin rmax).length = rmax + 1 - rmin := by
    unfold streakSpec
    simp [List.length_take, List.length_drop]
    omega
  have hOlen : (offSpec image rmin rmax).length =
      rmin + (image.length - (rmax + 1)) := by
    unfold offSpec
    simp [List.length_take, List.length_drop]
    omega
  have hSw : ∀ row ∈ streakSpec image rmin rmax, row.length = w := by
    intro row hrow
    exact hrect row (List.mem_of_mem_drop (List.mem_of_mem_take hrow))
  have hOw : ∀ row ∈ offSpec image rmin rmax, row.length = w := by
    intro row hrow
    rcases List.mem_append.mp hrow with h1 | h1
    · exact hrect row (List.mem_of_mem_take h1)
    · exact hrect row (List.mem_of_mem_drop h1)
  cases hS0 : streakSpec image rmin rmax with
  | nil => rw [hS0] at hSlen; simp at hSlen; omega
  | cons s0 St =>
  cases hO0 : offSpec image rmin rmax with
  | nil => rw [hO0] at hOlen; simp at hOlen; omega
  | cons o0 Ot =>
  rw [hS0] at hS hSw
  rw [hO0] at hO hOw
  unfold photometry
  rw [hS, hO]
  have hs0 : s0.length = w := hSw s0 (List.mem_cons_self s0 St)
  have ho0 : o0.length = w := hOw o0 (List.mem_cons_self o0 Ot)
  have hSpix : regionPixCount (s0 :: St) = (s0 :: St).length * s0.length := by
    rw [regionPixCount_eq (s0 :: St) w hSw, hs0]
  have hOpix : regionPixCount (o0 :: Ot) = (o0 :: Ot).length * o0.length := by
    rw [regionPixCount_eq (o0 :: Ot) w hOw, ho0]
  simp only [countPix2Spec, bgLevel, regionSum, hS0, hO0, hSpix, hOpix]
  cases zp with
  | none => rfl
  | some z =>
    cases z with
    | num z => rfl
    | nanSentinel => rfl

theorem regionSum_const (region : List (List ℚ)) (c : ℚ)
    (h : ∀ row ∈ region, ∀ x ∈ row, x = c) :
    regionSum region = c * regionPixCount region := by
  induction region with
  | nil => simp [regionSum, regionPixCount]
  | cons r rs ih =>
    have hr : r.sum = r.length • c :=
      List.sum_eq_card_nsmul r c (h r (List.mem_cons_self r rs))
    have hrs : regionSum rs = c * regionPixCount rs :=
      ih (fun row hrow => h row (List.mem_cons_of_mem r hrow))
    simp only [regionSum, regionPixCount, List.map_cons, List.sum_cons] at *
    rw [hr, hrs, nsmul_eq_mul]
    push_cast
    ring

theorem countPix2Spec_uniform (image : List (List ℚ)) (rmin rmax w : ℕ)
    (hrect : rectangular image w) (hw : 0 < w)
    (hmm : rmin ≤ rmax) (hub : rmax < image.length)
    (hoff : 0 < rmin ∨ rmax + 1 < image.length)
    (hoff10 : ∀ row ∈ offSpec image rmin rmax, ∀ x ∈ row, x = 10)
    (hstreak110 : ∀ row ∈ streakSpec image rmin rmax, ∀ x ∈ row, x = 110) :
    countPix2Spec image rmin rmax = 100 := by
  have hSw : ∀ row ∈ streakSpec image rmin rmax, row.length = w := by
    intro row hrow
    exact hrect row (List.mem_of_mem_drop (List.mem_of_mem_take hrow))
  have hOw : ∀ row ∈ offSpec image rmin rmax, row.length = w := by
    intro row hrow
    rcases List.mem_append.mp hrow with h1 | h1
    · exact hrect row (List.mem_of_mem_take h1)
    · exact hrect row (List.mem_of_mem_drop h1)
  have hSlen : (streakSpec image rmin rmax).length = rmax + 1 - rmin := by
    unfold streakSpec
    simp [List.length_take, List.length_drop]
    omega
  have hOlen : (offSpec image rmin rmax).length =
      rmin + (image.length - (rmax + 1)) := by
    unfold offSpec
    simp [List.length_take, List.length_drop]
    omega
  have hSpix : regionPixCount (streakSpec image rmin rmax) =
      (rmax + 1 - rmin) * w := by
    rw [regionPixCount_eq _ w hSw, hSlen]
  have hOpix : regionPixCount (offSpec image rmin rmax) =
      (rmin + (image.length - (rmax + 1))) * w := by
    rw [regionPixCount_eq _ w hOw, hOlen]
  have hSpos : 0 < regionPixCount (streakSpec image rmin rmax) := by
    rw [hSpix]; exact Nat.mul_pos (by omega) hw
  have hOpos : 0 < regionPixCount (offSpec image rmin rmax) := by
    rw [hOpix]; exact Nat.mul_pos (by omega) hw
  have hSQ : (regionPixCount (streakSpec image rmin rmax) : ℚ) ≠ 0 := by
    exact_mod_cast Nat.pos_iff_ne_zero.mp hSpos
  have hOQ : (regionPixCount (offSpec image rmin rmax) : ℚ) ≠ 0 := by
    exact_mod_cast Nat.pos_iff_ne_zero.mp hOpos
  have hOsum := regionSum_const _ 10 hoff10
  have hSsum := regionSum_const _ 110 hstreak110
  unfold countPix2Spec bgLevel
  rw [hOsum, hSsum]
  field_simp
  ring

theorem pyInt_mono {x y : ℚ} (h : x ≤ y) : pyInt x ≤ pyInt y := by
  unfold pyInt
  by_cases hx : 0 ≤ x
  · have hy : 0 ≤ y := le_trans hx h
    rw [if_pos hx, if_pos hy]
    exact Int.floor_le_floor h
  · by_cases hy : 0 ≤ y
    · rw [if_neg hx, if_pos hy]
      have h1 : ⌈x⌉ ≤ (0 : ℤ) :=
        Int.ceil_le.mpr (by exact_mod_cast le_of_lt (not_le.mp hx))
      have h2 : (0 : ℤ) ≤ ⌊y⌋ := Int.floor_nonneg.mpr hy
      omega
    · rw [if_neg hx, if_neg hy]
      exact Int.ceil_le_ceil h

theorem pyInt_intCast (n : ℤ) : pyInt ((n : ℚ)) = n := by
  unfold pyInt
  split
  · exact Int.floor_intCast n
  · exact Int.ceil_intCast n

theorem img_mask_pixAt (sqrtFn : ℚ → ℚ) (image_data : List (List ℚ))
    (t : ℚ) (i j : ℕ) :
    maskedPixAt (img_mask sqrtFn image_data (some t)) i j =
      (pixAt image_data i j).map (fun x => (x, decide (t < x))) := by
  unfold maskedPixAt pixAt img_mask maskRow
  rw [List.get?_map]
  cases image_data.get? i with
  | none => rfl
  | some row =>
    simp only [Option.map_some', Option.some_bind]
    rw [List.get?_map]

theorem maskedLineMean_set (line : List (ℚ × Bool)) (j : ℕ) (y x : ℚ)
    (h : line.get? j = some (y, true)) :
    maskedLineMean (line.set j (x, true)) = maskedLineMean line := by
  have key : (line.set j (x, true)).filter (fun p => !p.2) =
      line.filter (fun p => !p.2) := by
    induction line generalizing j with
    | nil => rfl
    | cons p rest ih =>
      cases j with
      | zero =>
        simp only [List.get?] at h
        cases h
        rfl
      | succ j =>
        simp only [List.get?] at h
        simp only [List.set]
        cases hp : (!p.2) <;> simp [List.filter_cons, hp, ih j h]
  unfold maskedLineMean
  rw [key]

theorem count_1d_get (image_data : List (List (ℚ × Bool))) (axis i : ℕ)
    (line : List (ℚ × Bool))
    (hline : (if axis = 1 then image_data else image_data.transpose).get? i =
      some line) :
    (count_1d image_data axis).1.get? i = some (maskedLineMean line) := by
  unfold count_1d
  cases hax : decide (axis = 1) with
  | true =>
    have hax1 : axis = 1 := of_decide_eq_true hax
    simp only [hax1, if_pos rfl] at hline ⊢
    rw [List.get?_map, hline]
    rfl
  | false =>
    have hax0 : ¬ (axis = 1) := of_decide_eq_false hax
    simp only [if_neg hax0] at hline ⊢
    rw [List.get?_map, hline]
    rfl

theorem offIdxs_full (n : ℕ) (hn : 0 < n) : offIdxs n 0 (n - 1) = [] := by
  unfold offIdxs
  have h1 : n - 1 + 1 = n := Nat.succ_pred_eq_of_pos hn
  rw [h1]
  simp

end LEOphotometry

namespace LEOphotometry

/-! ### Claim theorems -/

/-- C1: for every image region and extent with non-empty streak and
off-streak partitions, `photometry` computes the per-pixel background
level as sum(off-streak region) / pixel count of the off-streak region,
returns brightness per pixel² = (sum(streak region) − background level ×
streak pixel count) / streak pixel count, and brightness per arcsecond²
= brightness per pixel² / (plate scale)²; for a uniform background of
constant value 10 with a streak of constant value 110 exactly covering
the extent, brightness per pixel² equals 100 exactly. -/
theorem c1_flux_integrator_formulas (log10Fn : ℚ → ℚ)
    (image : List (List ℚ)) (rmin rmax w : ℕ) (arc : ℚ)
    (zp : Option Zeropoint) (hrect : rectangular image w) (hw : 0 < w)
    (hmm : rmin ≤ rmax) (hub : rmax < image.length)
    (hoff : 0 < rmin ∨ rmax + 1 < image.length) :
    ∃ r : PhotometryResult,
      photometry log10Fn image rmin rmax arc zp = some r ∧
      r.count_pix2 =
        (regionSum (streakSpec image rmin rmax) -
            regionSum (offSpec image rmin rmax) /
              (regionPixCount (offSpec image rmin rmax) : ℚ) *
              (regionPixCount (streakSpec image rmin rmax) : ℚ)) /
          (regionPixCount (streakSpec image rmin rmax) : ℚ) ∧
      r.count_arc2 = r.count_pix2 / arc ^ 2 ∧
      ((∀ row ∈ offSpec image rmin rmax, ∀ x ∈ row, x = 10) →
       (∀ row ∈ streakSpec image rmin rmax, ∀ x ∈ row, x = 110) →
       r.count_pix2 = 100) := by
  refine ⟨_,
    photometry_eval log10Fn image rmin rmax arc zp w hrect hmm hub hoff,
    ?_, ?_, ?_⟩
  · show countPix2Spec image rmin rmax = _
    unfold countPix2Spec bgLevel
    rfl
  · rfl
  · intro h10 h110
    exact countPix2Spec_uniform image rmin rmax w hrect hw hmm hub hoff
      h10 h110

/-- Witness for C1 on a concrete 4×2 image: uniform background 10, streak
value 110 on rows 1–2, yielding brightness per pixel² exactly 100. -/
theorem c1_flux_integrator_formulas_witness :
    (rectangular [[(10 : ℚ), 10], [110, 110], [110, 110], [10, 10]] 2 ∧
      0 < 2 ∧ 1 ≤ 2 ∧
      2 < [[(10 : ℚ), 10], [110, 110], [110, 110], [10, 10]].length ∧
      (0 < 1 ∨ 2 + 1 <
        [[(10 : ℚ), 10], [110, 110], [110, 110], [10, 10]].length)) ∧
    ∃ r : PhotometryResult,
      photometry (fun _ => 0) [[(10 : ℚ), 10], [110, 110], [110, 110], [10, 10]]
        1 2 (27 / 100) none = some r ∧
      r.count_pix2 = 100 := by
  refine ⟨⟨by unfold rectangular; decide, by decide, by decide, by decide,
    by decide⟩, ?_⟩
  obtain ⟨r, hr, _, _, h3⟩ :=
    c1_flux_integrator_formulas (fun _ => 0)
      [[(10 : ℚ), 10], [110, 110], [110, 110], [10, 10]] 1 2 2 (27 / 100) none
      (by unfold rectangular; decide) (by decide) (by decide) (by decide)
      (by decide)
  exact ⟨r, hr, h3 (by decide) (by decide)⟩

/-- C2: with zeropoint `None` or the sentinel `"NaN"`, `photometry`
returns both magnitude fields as the explicit absent value while the two
count-based brightness fields are still computed and returned; with a
valid numeric zeropoint, magnitude per pixel² = −2.5·log₁₀(brightness
per pixel²) + zeropoint and magnitude per arcsecond² analogously. -/
theorem c2_zeropoint_handling (log10Fn : ℚ → ℚ) (image : List (List ℚ))
    (rmin rmax w : ℕ) (arc : ℚ) (hrect : rectangular image w)
    (hmm : rmin ≤ rmax) (hub : rmax < image.length)
    (hoff : 0 < rmin ∨ rmax + 1 < image.length) :
    (∀ zp : Option Zeropoint,
      zp = none ∨ zp = some Zeropoint.nanSentinel →
        photometry log10Fn image rmin rmax arc zp =
          some { count_pix2 := countPix2Spec image rmin rmax
                 count_arc2 := countPix2Spec image rmin rmax / arc ^ 2
                 mag_pix2 := none
                 mag_arc2 := none }) ∧
    (∀ z : ℚ,
      photometry log10Fn image rmin rmax arc (some (Zeropoint.num z)) =
        some { count_pix2 := countPix2Spec image rmin rmax
               count_arc2 := countPix2Spec image rmin rmax / arc ^ 2
               mag_pix2 :=
                 some (-(5 / 2) * log10Fn (countPix2Spec image rmin rmax) + z)
               mag_arc2 :=
                 some (-(5 / 2) *
                   log10Fn (countPix2Spec image rmin rmax / arc ^ 2) + z) }) := by
  constructor
  · rintro zp (rfl | rfl) <;>
      rw [photometry_eval log10Fn image rmin rmax arc _ w hrect hmm hub hoff] <;>
      rfl
  · intro z
    rw [photometry_eval log10Fn image rmin rmax arc _ w hrect hmm hub hoff]
    rfl

/-- Witness for C2: on the concrete 4×2 image the sentinel zeropoint
yields absent magnitudes with the count fields populated. -/
theorem c2_zeropoint_handling_witness :
    (rectangular [[(10 : ℚ), 10], [110, 110], [110, 110], [10, 10]] 2 ∧
      1 ≤ 2 ∧
      2 < [[(10 : ℚ), 10], [110, 110], [110, 110], [10, 10]].length ∧
      (0 < 1 ∨ 2 + 1 <
        [[(10 : ℚ), 10], [110, 110], [110, 110], [10, 10]].length)) ∧
    ∃ p : PhotometryResult,
      photometry (fun _ => 0) [[(10 : ℚ), 10], [110, 110], [110, 110], [10, 10]]
        1 2 (27 / 100) (some Zeropoint.nanSentinel) = some p ∧
      p.mag_pix2 = none ∧ p.mag_arc2 = none ∧ p.count_pix2 = 100 := by
  refine ⟨⟨by unfold rectangular; decide, by decide, by decide, by decide⟩, ?_⟩
  have h :=
    (c2_zeropoint_handling (fun _ => 0)
      [[(10 : ℚ), 10], [110, 110], [110, 110], [10, 10]] 1 2 2 (27 / 100)
      (by unfold rectangular; decide) (by decide) (by decide) (by decide)).1
      (some Zeropoint.nanSentinel) (Or.inr rfl)
  refine ⟨_, h, rfl, rfl, ?_⟩
  exact countPix2Spec_uniform
    [[(10 : ℚ), 10], [110, 110], [110, 110], [10, 10]] 1 2 2
    (by unfold rectangular; decide) (by decide) (by decide) (by decide)
    (by decide) (by decide) (by decide)

/-- C3: whenever the nonlinear fit converges with parameters
`(a, mu, sigma, b)`, `gauss_fitting` reports the streak extent
`(int(mu − 3·sigma), int(mu + 3·sigma))` truncated toward zero, not
rounded; in particular fitted `mu = 50`, `sigma = 3` yields `[41, 59]`. -/
theorem c3_extent_truncation
    (fitFn : List ℚ → List ℚ → List ℚ → Option (ℚ × ℚ × ℚ × ℚ))
    (expFn : ℚ → ℚ) (counts coordinates : List ℚ) (a mu sigma b : ℚ)
    (hfit : fitFn coordinates counts
      [npMax counts, (npArgmax counts : ℚ), 1, npMedian counts] =
        some (a, mu, sigma, b)) :
    ∃ r : GaussFitResult,
      gauss_fitting fitFn expFn counts coordinates = some r ∧
      r.range_min = pyInt (mu - 3 * sigma) ∧
      r.range_max = pyInt (mu + 3 * sigma) ∧
      (mu = 50 → sigma = 3 → r.range_min = 41 ∧ r.range_max = 59) := by
  simp only [gauss_fitting]
  rw [hfit]
  refine ⟨_, rfl, rfl, rfl, ?_⟩
  rintro rfl rfl
  have e1 : ((50 : ℚ) - 3 * 3) = ((41 : ℤ) : ℚ) := by norm_num
  have e2 : ((50 : ℚ) + 3 * 3) = ((59 : ℤ) : ℚ) := by norm_num
  constructor
  · show pyInt ((50 : ℚ) - 3 * 3) = 41
    rw [e1, pyInt_intCast]
  · show pyInt ((50 : ℚ) + 3 * 3) = 59
    rw [e2, pyInt_intCast]

/-- Witness for C3: a constant solver returning `(100, 50, 3, 10)` gives
extent `[41, 59]`. -/
theorem c3_extent_truncation_witness :
    ((fun (_ _ _ : List ℚ) =>
        some ((100 : ℚ), (50 : ℚ), (3 : ℚ), (10 : ℚ)))
      [0, 1, 2] [0, 1, 0]
      [npMax [0, 1, 0], (npArgmax [0, 1, 0] : ℚ), 1, npMedian [0, 1, 0]] =
        some (100, 50, 3, 10)) ∧
    ∃ r : GaussFitResult,
      gauss_fitting (fun _ _ _ => some (100, 50, 3, 10)) (fun _ => 1)
        [0, 1, 0] [0, 1, 2] = some r ∧
      r.range_min = 41 ∧ r.range_max = 59 := by
  refine ⟨rfl, ?_⟩
  obtain ⟨r, hr, _, _, h3⟩ :=
    c3_extent_truncation (fun _ _ _ => some (100, 50, 3, 10)) (fun _ => 1)
      [0, 1, 0] [0, 1, 2] 100 50 3 10 rfl
  obtain ⟨h4, h5⟩ := h3 rfl rfl
  exact ⟨r, hr, h4, h5⟩

/-- C4 counterexample: nothing constrains the sign of the fitted width;
a converged fit with `sigma = −3` makes `gauss_fitting` return
`range_min = 59 > 41 = range_max`, violating the claimed invariant. -/
theorem c4_invariant_counterexample :
    ∃ r : GaussFitResult,
      gauss_fitting (fun _ _ _ => some (100, 50, -3, 10)) (fun _ => 1)
        [0, 1, 0] [0, 1, 2] = some r ∧
      ¬ r.range_min ≤ r.range_max := by
  refine ⟨_, rfl, ?_⟩
  have e1 : ((50 : ℚ) - 3 * (-3)) = ((59 : ℤ) : ℚ) := by norm_num
  have e2 : ((50 : ℚ) + 3 * (-3)) = ((41 : ℤ) : ℚ) := by norm_num
  show ¬ pyInt ((50 : ℚ) - 3 * (-3)) ≤ pyInt ((50 : ℚ) + 3 * (-3))
  rw [e1, e2, pyInt_intCast, pyInt_intCast]
  decide

/-- C4 (amended): whenever the fit converges with a nonnegative fitted
width `sigma`, the returned extent satisfies `range_min ≤ range_max`. -/
theorem c4_extent_invariant
    (fitFn : List ℚ → List ℚ → List ℚ → Option (ℚ × ℚ × ℚ × ℚ))
    (expFn : ℚ → ℚ) (counts coordinates : List ℚ) (a mu sigma b : ℚ)
    (r : GaussFitResult)
    (hfit : fitFn coordinates counts
      [npMax counts, (npArgmax counts : ℚ), 1, npMedian counts] =
        some (a, mu, sigma, b))
    (hres : gauss_fitting fitFn expFn counts coordinates = some r)
    (hsigma : 0 ≤ sigma) :
    r.range_min ≤ r.range_max := by
  simp only [gauss_fitting] at hres
  rw [hfit] at hres
  simp only [Option.some.injEq] at hres
  subst hres
  exact pyInt_mono (by linarith)

/-- Witness for C4 (amended): the constant solver with `sigma = 3` gives
`range_min = 41 ≤ 59 = range_max`. -/
theorem c4_extent_invariant_witness :
    ((fun (_ _ _ : List ℚ) =>
        some ((100 : ℚ), (50 : ℚ), (3 : ℚ), (10 : ℚ)))
      [0, 1, 2] [0, 1, 0]
      [npMax [0, 1, 0], (npArgmax [0, 1, 0] : ℚ), 1, npMedian [0, 1, 0]] =
        some (100, 50, 3, 10)) ∧
    (0 : ℚ) ≤ 3 ∧
    ∀ r : GaussFitResult,
      gauss_fitting (fun _ _ _ => some (100, 50, 3, 10)) (fun _ => 1)
        [0, 1, 0] [0, 1, 2] = some r →
      r.range_min ≤ r.range_max := by
  refine ⟨rfl, by decide, fun r hr => ?_⟩
  exact c4_extent_invariant (fun _ _ _ => some (100, 50, 3, 10)) (fun _ => 1)
    [0, 1, 0] [0, 1, 2] 100 50 3 10 r rfl hr (by decide)

end LEOphotometry

namespace LEOphotometry

/-- C5: with an explicit threshold, `img_mask` marks masked exactly the
pixels strictly greater than the threshold; a pixel equal to the
threshold is not masked, and no pixel below it is masked. -/
theorem c5_strict_threshold_mask (sqrtFn : ℚ → ℚ) (image : List (List ℚ))
    (t : ℚ) (i j : ℕ) (x : ℚ) (hx : pixAt image i j = some x) :
    maskedPixAt (img_mask sqrtFn image (some t)) i j =
      some (x, decide (t < x)) ∧
    (t < x ↔
      maskedPixAt (img_mask sqrtFn image (some t)) i j = some (x, true)) ∧
    (x ≤ t →
      maskedPixAt (img_mask sqrtFn image (some t)) i j = some (x, false)) := by
  have h := img_mask_pixAt sqrtFn image t i j
  rw [hx] at h
  simp only [Option.map_some'] at h
  refine ⟨h, ?_, ?_⟩
  · constructor
    · intro hlt
      rw [h]
      simp [hlt]
    · intro heq
      rw [h] at heq
      simp only [Option.some.injEq, Prod.mk.injEq, true_and] at heq
      exact of_decide_eq_true heq
  · intro hle
    rw [h]
    simp [not_lt.mpr hle]

/-- Witness for C5 at the boundary: pixel value 50 equals the explicit
threshold 50 and is not masked, while 51 is masked. -/
theorem c5_strict_threshold_mask_witness :
    (pixAt [[(49 : ℚ), 50], [51, 100]] 0 1 = some 50 ∧
      pixAt [[(49 : ℚ), 50], [51, 100]] 1 0 = some 51) ∧
    maskedPixAt (img_mask (fun _ => 0) [[(49 : ℚ), 50], [51, 100]] (some 50))
      0 1 = some (50, false) ∧
    maskedPixAt (img_mask (fun _ => 0) [[(49 : ℚ), 50], [51, 100]] (some 50))
      1 0 = some (51, true) := by
  refine ⟨⟨by decide, by decide⟩, ?_, ?_⟩
  · exact (c5_strict_threshold_mask (fun _ => 0) [[(49 : ℚ), 50], [51, 100]]
      50 0 1 50 (by decide)).2.2 (by decide)
  · exact ((c5_strict_threshold_mask (fun _ => 0) [[(49 : ℚ), 50], [51, 100]]
      50 1 0 51 (by decide)).2.1).mp (by decide)

/-- C6: with the threshold omitted, `img_mask` thresholds at
mean + 3 × standard deviation of the whole array (`s` being the
nonnegative square root of the population variance) and masks by the
same strict greater-than comparison. -/
theorem c6_default_threshold (sqrtFn : ℚ → ℚ) (image : List (List ℚ))
    (s : ℚ) (i j : ℕ) (x : ℚ) (hs : sqrtFn (npVar image) = s)
    (_hs0 : 0 ≤ s) (_hs2 : s ^ 2 = npVar image)
    (hx : pixAt image i j = some x) :
    img_mask sqrtFn image none =
      img_mask sqrtFn image (some (npMean image + 3 * s)) ∧
    maskedPixAt (img_mask sqrtFn image none) i j =
      some (x, decide (npMean image + 3 * s < x)) := by
  have heq : img_mask sqrtFn image none =
      img_mask sqrtFn image (some (npMean image + 3 * s)) := by
    unfold img_mask
    rw [hs]
  refine ⟨heq, ?_⟩
  rw [heq]
  have h := img_mask_pixAt sqrtFn image (npMean image + 3 * s) i j
  rw [hx] at h
  simpa using h

/-- Witness for C6: a 1×17 image of sixteen zeros and one 17 has mean 1
and standard deviation 4, so the automatic threshold is 13 and only the
17 is masked. -/
theorem c6_default_threshold_witness :
    ((fun _ : ℚ => (4 : ℚ))
        (npVar [[0, 0, 0, 0, 0, 0, 0, 0, 0, 0, 0, 0, 0, 0, 0, 0, (17 : ℚ)]]) =
      4 ∧
      (0 : ℚ) ≤ 4 ∧
      (4 : ℚ) ^ 2 =
        npVar [[0, 0, 0, 0, 0, 0, 0, 0, 0, 0, 0, 0, 0, 0, 0, 0, (17 : ℚ)]] ∧
      pixAt [[0, 0, 0, 0, 0, 0, 0, 0, 0, 0, 0, 0, 0, 0, 0, 0, (17 : ℚ)]] 0 16 =
        some 17) ∧
    maskedPixAt
      (img_mask (fun _ => 4)
        [[0, 0, 0, 0, 0, 0, 0, 0, 0, 0, 0, 0, 0, 0, 0, 0, (17 : ℚ)]] none)
      0 16 = some (17, true) := by
  have hvar : npVar [[0, 0, 0, 0, 0, 0, 0, 0, 0, 0, 0, 0, 0, 0, 0, 0, (17 : ℚ)]] =
      16 := by
    norm_num [npVar, npMean, pixels]
  have hmean : npMean [[0, 0, 0, 0, 0, 0, 0, 0, 0, 0, 0, 0, 0, 0, 0, 0, (17 : ℚ)]] =
      1 := by
    norm_num [npMean, pixels]
  refine ⟨⟨rfl, by norm_num, by rw [hvar]; norm_num, by decide⟩, ?_⟩
  have h := (c6_default_threshold (fun _ => 4)
    [[0, 0, 0, 0, 0, 0, 0, 0, 0, 0, 0, 0, 0, 0, 0, 0, (17 : ℚ)]] 4 0 16 17
    rfl (by norm_num) (by rw [hvar]; norm_num) (by decide)).2
  rw [h, hmean]
  norm_num

/-- C7: `count_1d` returns the profile of arithmetic means of the
unmasked entries along the collapsed axis (masked entries excluded, an
all-masked line giving an absent value, and a masked entry's stored
value never influencing the mean), together with the integer coordinate
sequence `0..N−1` for `N` the size of the remaining axis. -/
theorem c7_axial_profiler (image : List (List (ℚ × Bool))) (axis : ℕ) :
    (count_1d image axis).2 =
      List.range (if axis = 1 then image else image.transpose).length ∧
    (∀ (i : ℕ) (line : List (ℚ × Bool)),
      (if axis = 1 then image else image.transpose).get? i = some line →
        (unmaskedVals line ≠ [] →
          (count_1d image axis).1.get? i =
            some (some
              ((unmaskedVals line).sum / (unmaskedVals line).length))) ∧
        (unmaskedVals line = [] →
          (count_1d image axis).1.get? i = some none)) ∧
    (∀ (line : List (ℚ × Bool)) (j : ℕ) (y x : ℚ),
      line.get? j = some (y, true) →
        maskedLineMean (line.set j (x, true)) = maskedLineMean line) := by
  refine ⟨?_, ?_, maskedLineMean_set⟩
  · unfold count_1d
    by_cases hax : axis = 1 <;> simp [hax]
  · intro i line hline
    have h := count_1d_get image axis i line hline
    constructor
    · intro hne
      rw [h]
      show some (maskedLineMean line) = _
      unfold maskedLineMean unmaskedVals at *
      rw [if_neg (fun h0 => hne (List.eq_nil_of_length_eq_zero h0))]
    · intro hempty
      rw [h]
      show some (maskedLineMean line) = _
      unfold maskedLineMean unmaskedVals at *
      rw [hempty]
      rfl

/-- Witness for C7: a single line with values 10, 10 and a masked 1000
yields mean 10, not 340. -/
theorem c7_axial_profiler_witness :
    ((if (1 : ℕ) = 1
        then [[((10 : ℚ), false), ((10 : ℚ), false), ((1000 : ℚ), true)]]
        else [[((10 : ℚ), false), ((10 : ℚ), false),
          ((1000 : ℚ), true)]].transpose).get? 0 =
      some [((10 : ℚ), false), ((10 : ℚ), false), ((1000 : ℚ), true)] ∧
      unmaskedVals
          [((10 : ℚ), false), ((10 : ℚ), false), ((1000 : ℚ), true)] ≠ []) ∧
    (count_1d [[((10 : ℚ), false), ((10 : ℚ), false), ((1000 : ℚ), true)]]
        1).1.get? 0 = some (some 10) := by
  refine ⟨⟨by decide, by decide⟩, ?_⟩
  have h := ((c7_axial_profiler
    [[((10 : ℚ), false), ((10 : ℚ), false), ((1000 : ℚ), true)]] 1).2.1 0
    [((10 : ℚ), false), ((10 : ℚ), false), ((1000 : ℚ), true)]
    (by decide)).1 (by decide)
  rw [h]
  norm_num [unmaskedVals]

/-- C8: calling `radec_to_pixel` with origin 1 returns exactly the
origin-0 outputs with one added to both coordinates after the mapping. -/
theorem c8_origin_shift (ra_deg dec_deg : ℚ)
    (wcs_obj : ℚ × ℚ → ℚ × ℚ) :
    radec_to_pixel ra_deg dec_deg wcs_obj 1 =
      (radec_to_pixel ra_deg dec_deg wcs_obj 0).map (fun v => v + 1) := by
  unfold radec_to_pixel
  simp

/-- C9: when the off-streak partition is empty (extent covering every
row), `photometry` fails with an error (modelled as `none`) instead of
returning a result. -/
theorem c9_empty_off_region_fails (log10Fn : ℚ → ℚ)
    (image : List (List ℚ)) (range_min range_max : ℕ) (arc : ℚ)
    (zp : Option Zeropoint) (himg : image ≠ []) (hmin : range_min = 0)
    (hmax : range_max = image.length - 1) :
    photometry log10Fn image range_min range_max arc zp = none := by
  subst hmin hmax
  have hn : 0 < image.length := List.length_pos.mpr himg
  have hS := rowsAt_streak image 0 (image.length - 1) (by omega) (by omega)
  unfold photometry
  rw [offIdxs_full image.length hn, hS]
  cases streakSpec image 0 (image.length - 1) with
  | nil => rfl
  | cons s0 St => rfl

/-- Witness for C9: a 2×1 image with extent (0, 1) covering all rows
makes `photometry` fail. -/
theorem c9_empty_off_region_fails_witness :
    ([[(1 : ℚ)], [2]] ≠ ([] : List (List ℚ)) ∧
      (0 : ℕ) = 0 ∧ (1 : ℕ) = [[(1 : ℚ)], [2]].length - 1) ∧
    photometry (fun _ => 0) [[(1 : ℚ)], [2]] 0 1 (27 / 100) none = none := by
  refine ⟨⟨by decide, rfl, rfl⟩, ?_⟩
  exact c9_empty_off_region_fails (fun _ => 0) [[(1 : ℚ)], [2]] 0 1 (27 / 100)
    none (by decide) rfl rfl

/-- C10: any origin value other than 1 (for example 2 or −1) yields
exactly the origin-0 pixel coordinates: no shift and no rejection. -/
theorem c10_origin_other_values (ra_deg dec_deg : ℚ)
    (wcs_obj : ℚ × ℚ → ℚ × ℚ) (origin : ℤ) (h : origin ≠ 1) :
    radec_to_pixel ra_deg dec_deg wcs_obj origin =
      radec_to_pixel ra_deg dec_deg wcs_obj 0 := by
  unfold radec_to_pixel
  rw [if_neg h, if_neg (by decide : ¬ (0 : ℤ) = 1)]

/-- Witness for C10 at origins 2 and −1. -/
theorem c10_origin_other_values_witness :
    ((2 : ℤ) ≠ 1 ∧
      radec_to_pixel 3 4 (fun p => p) 2 = radec_to_pixel 3 4 (fun p => p) 0) ∧
    ((-1 : ℤ) ≠ 1 ∧
      radec_to_pixel 3 4 (fun p => p) (-1) =
        radec_to_pixel 3 4 (fun p => p) 0) :=
  ⟨⟨by decide, c10_origin_other_values 3 4 (fun p => p) 2 (by decide)⟩,
   ⟨by decide, c10_origin_other_values 3 4 (fun p => p) (-1) (by decide)⟩⟩

end LEOphotometry
